import Mathlib

/-!
Verification of the core of `amazon-planner`: the reorder-metrics engine
(`compute_from_last_months` in `main.py`), the month-window aggregation
(`compute_for_sku`), the user-scoped data-store helpers, and the
credential/session service (`auth.py`).

Numbers that Python treats as floats are modelled as real numbers (the spec
fixes "all five outputs are real numbers, no rounding inside the engine").
Python ints are modelled as `ℤ`.
-/

namespace AmazonPlanner

/-- The five-field result dictionary returned by `compute_from_last_months`. -/
structure Metrics where
  daily_velocity : ℝ
  std_daily : ℝ
  safety_stock : ℝ
  rop : ℝ
  order_qty : ℝ

/-- `statistics.stdev`, as called by `compute_from_last_months` on a list of
ints with at least two elements: square root of the sum of squared deviations
from the mean divided by `n - 1` (sample standard deviation). -/
noncomputable def stdev (l : List ℤ) : ℝ :=
  let n : ℝ := l.length
  let mean : ℝ := (l.map fun x => (x : ℝ)).sum / n
  Real.sqrt (((l.map fun x => ((x : ℝ) - mean) ^ 2).sum) / (n - 1))

/-- `compute_from_last_months(lead_time, z, monthly_units, fba_stock,
inbound_stock)` from `main.py`: all-zero metrics on an empty list, otherwise
mean/velocity/std-dev/safety-stock/ROP/order-quantity as in the source. -/
noncomputable def compute_from_last_months (lead_time : ℤ) (z : ℝ)
    (monthly_units : List ℤ) (fba_stock inbound_stock : ℤ) : Metrics :=
  if monthly_units = [] then
    { daily_velocity := 0, std_daily := 0, safety_stock := 0, rop := 0, order_qty := 0 }
  else
    let mean_month : ℝ := (monthly_units.map fun x => (x : ℝ)).sum / monthly_units.length
    let daily_velocity := mean_month / 30
    let std_daily : ℝ := if 2 ≤ monthly_units.length then stdev monthly_units / 30 else 0
    let safety_stock := z * std_daily * Real.sqrt ((max 1 lead_time : ℤ) : ℝ)
    let rop := daily_velocity * (lead_time : ℝ) + safety_stock
    let order_qty := max 0 (daily_velocity * 60 + safety_stock - ((fba_stock : ℝ) + (inbound_stock : ℝ)))
    { daily_velocity := daily_velocity, std_daily := std_daily,
      safety_stock := safety_stock, rop := rop, order_qty := order_qty }

/-- Reference definition from the spec (§4.3): mean of the sequence. -/
noncomputable def specMean (l : List ℤ) : ℝ :=
  (l.map fun x => (x : ℝ)).sum / l.length

/-- Reference definition from the spec (§4.3): sample standard deviation with
the `(n-1)` divisor (unbiased estimator). -/
noncomputable def specSampleStdDev (l : List ℤ) : ℝ :=
  Real.sqrt ((l.map fun x => ((x : ℝ) - specMean l) ^ 2).sum / ((l.length : ℝ) - 1))

/-- Reference definition from the spec (§4.3) for a non-empty sequence:
`dailyVelocity = mean/30`, `stdDaily = sampleStdDev/30` for at least 2 points
else 0, `safetyStock = z * stdDaily * sqrt(max(1, leadTimeDays))`,
`reorderPoint = dailyVelocity * leadTimeDays + safetyStock`,
`orderQuantity = max(0, dailyVelocity * 60 + safetyStock - (fbaStock + inboundStock))`. -/
noncomputable def specMetrics (lead_time : ℤ) (z : ℝ)
    (l : List ℤ) (fba_stock inbound_stock : ℤ) : Metrics :=
  let dailyVelocity := specMean l / 30
  let stdDaily : ℝ := if 2 ≤ l.length then specSampleStdDev l / 30 else 0
  let safetyStock := z * stdDaily * Real.sqrt (max 1 (lead_time : ℝ))
  { daily_velocity := dailyVelocity
    std_daily := stdDaily
    safety_stock := safetyStock
    rop := dailyVelocity * (lead_time : ℝ) + safetyStock
    order_qty := max 0 (dailyVelocity * 60 + safetyStock - ((fba_stock : ℝ) + (inbound_stock : ℝ))) }

/-- C1: on every non-empty monthly-units sequence the engine agrees with the
spec's reference definition field by field, and the resulting order quantity
is never negative. -/
theorem engine_matches_reference (lead_time : ℤ) (z : ℝ)
    (monthly_units : List ℤ) (fba_stock inbound_stock : ℤ)
    (hne : monthly_units ≠ []) :
    compute_from_last_months lead_time z monthly_units fba_stock inbound_stock =
      specMetrics lead_time z monthly_units fba_stock inbound_stock ∧
    0 ≤ (compute_from_last_months lead_time z monthly_units fba_stock inbound_stock).order_qty := by
  constructor
  · unfold compute_from_last_months specMetrics specSampleStdDev stdev specMean
    rw [if_neg hne]
    have hmax : ((max 1 lead_time : ℤ) : ℝ) = max 1 (lead_time : ℝ) := by
      push_cast; rfl
    simp only [hmax]
  · unfold compute_from_last_months
    rw [if_neg hne]
    exact le_max_left 0 _

/-- Witness for C1 at lead time 7, z = 1, units `[100, 120, 110]`, stocks 50/0. -/
theorem engine_matches_reference_witness :
    ([100, 120, 110] : List ℤ) ≠ [] ∧
    (compute_from_last_months 7 1 [100, 120, 110] 50 0 =
      specMetrics 7 1 [100, 120, 110] 50 0 ∧
     0 ≤ (compute_from_last_months 7 1 [100, 120, 110] 50 0).order_qty) :=
  ⟨by decide, engine_matches_reference 7 1 [100, 120, 110] 50 0 (by decide)⟩

/-- C2: on the empty monthly-units sequence the engine returns all five
metrics equal to 0, for every lead time, z, and stock levels. -/
theorem engine_empty_all_zero (lead_time : ℤ) (z : ℝ) (fba_stock inbound_stock : ℤ) :
    compute_from_last_months lead_time z [] fba_stock inbound_stock =
      { daily_velocity := 0, std_daily := 0, safety_stock := 0, rop := 0, order_qty := 0 } := by
  unfold compute_from_last_months
  rw [if_pos rfl]

/-- Closed-form evaluation of the engine on the spec's §8 scenario:
lead time 7, z = 1.65, monthly units `[100, 120, 110]`, fba 50, inbound 0. -/
theorem scenario_closed_form :
    compute_from_last_months 7 (33 / 20) [100, 120, 110] 50 0 =
      { daily_velocity := 11 / 3
        std_daily := 1 / 3
        safety_stock := 11 / 20 * Real.sqrt 7
        rop := 77 / 3 + 11 / 20 * Real.sqrt 7
        order_qty := 170 + 11 / 20 * Real.sqrt 7 } := by
  have h100 : Real.sqrt 100 = 10 := by
    rw [show (100 : ℝ) = 10 ^ 2 by norm_num, Real.sqrt_sq (by norm_num)]
  have h7nn : (0 : ℝ) ≤ Real.sqrt 7 := Real.sqrt_nonneg 7
  unfold compute_from_last_months stdev
  rw [if_neg (by decide : ¬([100, 120, 110] : List ℤ) = [])]
  simp only [List.map_cons, List.map_nil, List.sum_cons, List.sum_nil,
    List.length_cons, List.length_nil]
  norm_num
  rw [h100]
  refine ⟨by norm_num, by norm_num, ?_⟩
  have hx : (0 : ℝ) ≤ 220 + 33 / 20 * (10 / 30) * Real.sqrt 7 - 50 := by nlinarith
  rw [max_eq_right hx]
  ring

/-- C9 counterexample: at lead time 7, z 1.65, units `[100, 120, 110]`, fba 50,
inbound 0, the engine's stdDaily is more than 0.003 away from the claimed
0.337, safetyStock more than 0.02 away from 1.48, reorderPoint more than 0.4
away from 26.7, and orderQuantity more than 0.2 away from 171.7. -/
theorem scenario_claim_values_wrong :
    3 / 1000 < |(compute_from_last_months 7 (33 / 20) [100, 120, 110] 50 0).std_daily - 0.337| ∧
    1 / 50 < |(compute_from_last_months 7 (33 / 20) [100, 120, 110] 50 0).safety_stock - 1.48| ∧
    2 / 5 < |(compute_from_last_months 7 (33 / 20) [100, 120, 110] 50 0).rop - 26.7| ∧
    1 / 5 < |(compute_from_last_months 7 (33 / 20) [100, 120, 110] 50 0).order_qty - 171.7| := by
  have h7sq : Real.sqrt 7 ^ 2 = 7 := Real.sq_sqrt (by norm_num)
  have h7nn : (0 : ℝ) ≤ Real.sqrt 7 := Real.sqrt_nonneg 7
  have h7lo : (2.6457 : ℝ) < Real.sqrt 7 := by nlinarith [h7sq, h7nn]
  have h7hi : Real.sqrt 7 < 2.6458 := by nlinarith [h7sq, h7nn]
  rw [scenario_closed_form]
  refine ⟨?_, ?_, ?_, ?_⟩
  · rw [lt_abs]; right; norm_num
  · rw [lt_abs]; right; nlinarith
  · rw [lt_abs]; left; nlinarith
  · rw [lt_abs]; right; nlinarith

/-- C9 amended: at lead time 7, z 1.65, units `[100, 120, 110]`, fba 50,
inbound 0, the engine yields dailyVelocity = 11/3 ≈ 3.67, stdDaily = 1/3
(≈ 0.333), safetyStock ≈ 1.455, reorderPoint ≈ 27.122 and
orderQuantity ≈ 171.455 (each within 0.001). -/
theorem scenario_actual_values :
    (compute_from_last_months 7 (33 / 20) [100, 120, 110] 50 0).daily_velocity = 11 / 3 ∧
    |(11 : ℝ) / 3 - 3.67| ≤ 5 / 1000 ∧
    (compute_from_last_months 7 (33 / 20) [100, 120, 110] 50 0).std_daily = 1 / 3 ∧
    |(compute_from_last_months 7 (33 / 20) [100, 120, 110] 50 0).safety_stock - 1.455| ≤ 1 / 1000 ∧
    |(compute_from_last_months 7 (33 / 20) [100, 120, 110] 50 0).rop - 27.122| ≤ 1 / 1000 ∧
    |(compute_from_last_months 7 (33 / 20) [100, 120, 110] 50 0).order_qty - 171.455| ≤ 1 / 1000 := by
  have h7sq : Real.sqrt 7 ^ 2 = 7 := Real.sq_sqrt (by norm_num)
  have h7nn : (0 : ℝ) ≤ Real.sqrt 7 := Real.sqrt_nonneg 7
  have h7lo : (2.6457 : ℝ) < Real.sqrt 7 := by nlinarith [h7sq, h7nn]
  have h7hi : Real.sqrt 7 < 2.6458 := by nlinarith [h7sq, h7nn]
  rw [scenario_closed_form]
  refine ⟨rfl, by rw [abs_le]; constructor <;> norm_num, rfl, ?_, ?_, ?_⟩
  all_goals rw [abs_le]; constructor <;> nlinarith

/-! ## Credential & Session Service (`auth.py`)

The session layer wraps `itsdangerous.URLSafeTimedSerializer`, an external
library: a token carries a serialized payload and a signing timestamp under
a keyed signature. `loads(token, max_age)` first verifies the signature
(raising `BadSignature` on any tampering or wrong key), then the timestamp
(raising `SignatureExpired` when `now - ts > max_age`), and only then
deserializes the payload, raising `BadPayload` when the correctly signed
bytes are not a valid serialization. `decode_session_cookie` then applies
Python's `int(...)` to the deserialized object, which raises `ValueError`
on a non-numeric string and `TypeError` on a non-scalar object (list,
dict, `None`). The source's `except` clause catches exactly
`(BadSignature, SignatureExpired, ValueError)` — `SignatureExpired` is a
subclass of `BadSignature`, and `BadPayload` and `TypeError` are NOT
caught, so those two paths propagate to the caller. The model makes the
raise/return distinction explicit: `decode_session_cookie` returns
`Except PyErr (Option ℤ)`, where `.ok` is a normal return and `.error` is
an exception escaping to the caller. -/

/-- Deserialized payload carried by a correctly signed token. `dumps` is
only ever called on an `int` user id, but a holder of the key can sign
anything: `intVal n` stands for objects `int(...)` maps to `n` (ints, and
also bools, floats and numeric strings); `strNonNum` for strings `int(...)`
rejects with `ValueError`; `nonScalar` for lists, dicts or `None`, on which
`int(...)` raises `TypeError`; `undecodable` for correctly signed bytes
that fail deserialization, making `loads` raise `BadPayload`. -/
inductive Payload where
  | intVal : ℤ → Payload
  | strNonNum : ℕ → Payload
  | nonScalar : ℕ → Payload
  | undecodable : ℕ → Payload
deriving DecidableEq

/-- A candidate session token: either produced by the serializer under some
key at some timestamp, or arbitrary bytes whose signature does not check
out at all. -/
inductive Token where
  | signed : ℕ → Payload → ℤ → Token
  | malformed : ℕ → Token
deriving DecidableEq

/-- The Python exceptions that can arise inside `decode_session_cookie`:
the `itsdangerous` errors plus the two `int(...)` conversion errors. -/
inductive PyErr where
  | badSignature | signatureExpired | badPayload | valueError | typeError
deriving DecidableEq

/-- Membership in the source's `except (BadSignature, SignatureExpired,
ValueError)` tuple. `BadPayload` and `TypeError` are not in it. -/
def caught : PyErr → Bool
  | .badSignature => true
  | .signatureExpired => true
  | .valueError => true
  | .badPayload => false
  | .typeError => false

/-- `SESSION_MAX_AGE = 60 * 60 * 24 * 30` seconds (30 days) from `auth.py`. -/
def SESSION_MAX_AGE : ℤ := 60 * 60 * 24 * 30

/-- `_signer.loads(token, max_age)`: signature check first, then the
max-age check on the embedded timestamp, then payload deserialization
(`BadPayload` on correctly signed but undecodable bytes). -/
def signer_loads (key : ℕ) (tok : Token) (max_age now : ℤ) : Except PyErr Payload :=
  match tok with
  | .malformed _ => .error .badSignature
  | .signed k p ts =>
      if k ≠ key then .error .badSignature
      else if max_age < now - ts then .error .signatureExpired
      else
        match p with
        | .undecodable _ => .error .badPayload
        | _ => .ok p

/-- Python's `int(...)` applied to the deserialized payload: an integer
comes out as itself, a non-numeric string raises `ValueError`, a non-scalar
raises `TypeError`. -/
def payloadToInt : Payload → Except PyErr ℤ
  | .intVal n => .ok n
  | .strNonNum _ => .error .valueError
  | .nonScalar _ => .error .typeError
  | .undecodable _ => .error .badPayload

/-- `make_session_cookie(user_id)` from `auth.py`: `_signer.dumps(user_id)`,
a token signing the user id under the process key at the current time. -/
def make_session_cookie (key : ℕ) (now : ℤ) (user_id : ℤ) : Token :=
  .signed key (.intVal user_id) now

/-- `decode_session_cookie(token)` from `auth.py`: `int(_signer.loads(token,
max_age=SESSION_MAX_AGE))` inside `try`, with exactly `BadSignature`,
`SignatureExpired` and `ValueError` caught and turned into `None`
(`.ok none`); any other exception propagates (`.error`). -/
def decode_session_cookie (key : ℕ) (now : ℤ) (tok : Token) : Except PyErr (Option ℤ) :=
  match signer_loads key tok SESSION_MAX_AGE now >>= payloadToInt with
  | .ok n => .ok (some n)
  | .error e => if caught e then .ok none else .error e

/-- C4 counterexample: a token signed with the correct process key whose
payload is a non-scalar object (or undecodable bytes) makes
`decode_session_cookie` raise `TypeError` (resp. `BadPayload`) to its
caller — neither is in the `except` tuple — instead of yielding the
absence value. -/
theorem decode_session_cookie_can_raise :
    decode_session_cookie 0 0 (.signed 0 (.nonScalar 0) 0) = .error .typeError ∧
    decode_session_cookie 0 0 (.signed 0 (.undecodable 0) 0) = .error .badPayload :=
  ⟨rfl, rfl⟩

/-- C4 amended: `decode_session_cookie` yields `None` without raising on
every malformed token, every token signed under a different key, a
correctly-keyed payload that `int(...)` rejects with `ValueError`, and —
even with a correct signature and any payload — a token whose embedded
timestamp is older than the 30-day `SESSION_MAX_AGE`; but a fresh,
correctly-keyed token whose payload is non-scalar or undecodable raises an
uncaught `TypeError`/`BadPayload` to the caller. -/
theorem decode_session_cookie_exception_contract
    (key k junk s j b : ℕ) (now ts ts2 tsf : ℤ) (p p2 : Payload)
    (hk : k ≠ key) (hexp : SESSION_MAX_AGE < now - ts)
    (hfresh : now - tsf ≤ SESSION_MAX_AGE) :
    decode_session_cookie key now (.malformed junk) = .ok none ∧
    decode_session_cookie key now (.signed k p2 ts2) = .ok none ∧
    decode_session_cookie key now (.signed key (.strNonNum s) ts2) = .ok none ∧
    decode_session_cookie key now (.signed key p ts) = .ok none ∧
    decode_session_cookie key now (.signed key (.nonScalar j) tsf) = .error .typeError ∧
    decode_session_cookie key now (.signed key (.undecodable b) tsf) = .error .badPayload := by
  have hnf : ¬SESSION_MAX_AGE < now - tsf := not_lt.mpr hfresh
  refine ⟨rfl, ?_, ?_, ?_, ?_, ?_⟩
  · simp [decode_session_cookie, signer_loads, payloadToInt, caught, hk,
      Bind.bind, Except.bind]
  · by_cases h : SESSION_MAX_AGE < now - ts2 <;>
      simp [decode_session_cookie, signer_loads, payloadToInt, caught, h,
        Bind.bind, Except.bind]
  · cases p <;>
      simp [decode_session_cookie, signer_loads, payloadToInt, caught, hexp,
        Bind.bind, Except.bind]
  · simp [decode_session_cookie, signer_loads, payloadToInt, caught, hnf,
      Bind.bind, Except.bind]
  · simp [decode_session_cookie, signer_loads, payloadToInt, caught, hnf,
      Bind.bind, Except.bind]

/-- Witness for the amended C4: key 0 against a token signed with key 1, a
non-numeric string payload, a token aged 30 days plus one second, and fresh
correctly-keyed non-scalar and undecodable payloads. -/
theorem decode_session_cookie_exception_contract_witness :
    (1 : ℕ) ≠ 0 ∧ SESSION_MAX_AGE < 2592001 - 0 ∧
    (2592001 : ℤ) - 2592001 ≤ SESSION_MAX_AGE ∧
    (decode_session_cookie 0 2592001 (.malformed 7) = .ok none ∧
     decode_session_cookie 0 2592001 (.signed 1 (.intVal 5) 2592001) = .ok none ∧
     decode_session_cookie 0 2592001 (.signed 0 (.strNonNum 3) 2592001) = .ok none ∧
     decode_session_cookie 0 2592001 (.signed 0 (.intVal 5) 0) = .ok none ∧
     decode_session_cookie 0 2592001 (.signed 0 (.nonScalar 4) 2592001) = .error .typeError ∧
     decode_session_cookie 0 2592001 (.signed 0 (.undecodable 6) 2592001) = .error .badPayload) :=
  ⟨by decide, by decide, by decide,
   decode_session_cookie_exception_contract 0 1 7 3 4 6 2592001 0 2592001 2592001
     (.intVal 5) (.intVal 5) (by decide) (by decide) (by decide)⟩

/-- C5: decoding a freshly created session token round-trips to the user id
without raising, for any user id, as long as no more than the max age has
elapsed and the same process key is used. -/
theorem session_round_trip (key : ℕ) (uid ts now : ℤ)
    (h : now - ts ≤ SESSION_MAX_AGE) :
    decode_session_cookie key now (make_session_cookie key ts uid) = .ok (some uid) := by
  simp [decode_session_cookie, make_session_cookie, signer_loads, payloadToInt,
    not_lt.mpr h, Bind.bind, Except.bind]

/-- Witness for C5: user id 42, decoded at the moment of creation. -/
theorem session_round_trip_witness :
    (0 : ℤ) - 0 ≤ SESSION_MAX_AGE ∧
    decode_session_cookie 9 0 (make_session_cookie 9 0 42) = .ok (some 42) :=
  ⟨by decide, session_round_trip 9 42 0 0 (by decide)⟩


/-! ## Password hashing (`auth.py`)

A Python `str` is modelled as the list of its characters, each character
given by its UTF-8 encoding (a nonempty list of bytes); `plain[:72]` is then
`List.take 72` on characters. The bcrypt primitive behind passlib's
`CryptContext` (configured with `bcrypt__truncate_error=False`) digests at
most the first 72 bytes of the encoded input, silently ignoring the rest;
the digest itself is external, so it enters as a function argument. -/

/-- One Python string: characters as their nonempty UTF-8 byte encodings. -/
abbrev PyStr := List (List ℕ)

/-- UTF-8 encoding of a whole string: concatenation of the per-character
encodings. -/
def utf8Encode (s : PyStr) : List ℕ := s.flatten

/-- Bytes that reach the bcrypt digest for a given plaintext: the source's
`plain[:72]` character slice, encoded, then capped at bcrypt's 72-byte
limit by the backend. -/
def pwdInput (plain : PyStr) : List ℕ := (utf8Encode (plain.take 72)).take 72

/-- `hash_password(plain)` from `auth.py`: `_pwd_ctx.hash(plain[:72])`, the
bcrypt digest of the truncated plaintext under a salt. -/
def hash_password (bcryptHash : List ℕ → ℕ → ℕ) (salt : ℕ) (plain : PyStr) : ℕ :=
  bcryptHash (pwdInput plain) salt

/-- `verify_password(plain, hashed)` from `auth.py`:
`_pwd_ctx.verify(plain[:72], hashed)`. -/
def verify_password (bcryptVerify : List ℕ → ℕ → Bool) (plain : PyStr) (hashed : ℕ) : Bool :=
  bcryptVerify (pwdInput plain) hashed

/-- For a string of valid characters (nonempty encodings), the character
slice composed with the backend's byte cap is exactly truncation of the
encoded input to its first 72 bytes. -/
theorem pwdInput_eq_take_72_bytes (s : PyStr) (hc : ∀ c ∈ s, c ≠ []) :
    pwdInput s = (utf8Encode s).take 72 := by
  unfold pwdInput utf8Encode
  by_cases hlen : s.length ≤ 72
  · rw [List.take_of_length_le hlen]
  · have hsplit : s.flatten = (s.take 72).flatten ++ (s.drop 72).flatten := by
      rw [← List.flatten_append, List.take_append_drop]
    have hlong : 72 ≤ (s.take 72).flatten.length := by
      rw [List.length_flatten]
      have hone : ∀ i ∈ (s.take 72).map List.length, 1 ≤ i := by
        intro i hi
        rcases List.mem_map.mp hi with ⟨c, hcmem, hrfl⟩
        have : c ≠ [] := hc c (List.mem_of_mem_take hcmem)
        subst hrfl
        exact List.length_pos.mpr this
      have := List.length_le_sum_of_one_le _ hone
      rw [List.length_map, List.length_take] at this
      omega
    rw [hsplit, List.take_append_of_le_length hlong]

/-- C6: two plaintexts whose UTF-8 encodings agree on their first 72 bytes
reach the hashing primitive as the same byte string, so they hash and
verify identically; the bytes reaching the primitive are exactly the first
72 bytes of the input. -/
theorem password_truncated_to_72_bytes
    (p1 p2 : PyStr) (bcryptHash : List ℕ → ℕ → ℕ) (salt : ℕ)
    (bcryptVerify : List ℕ → ℕ → Bool) (hashed : ℕ)
    (h1 : ∀ c ∈ p1, c ≠ []) (h2 : ∀ c ∈ p2, c ≠ [])
    (hb : (utf8Encode p1).take 72 = (utf8Encode p2).take 72) :
    pwdInput p1 = (utf8Encode p1).take 72 ∧
    pwdInput p1 = pwdInput p2 ∧
    hash_password bcryptHash salt p1 = hash_password bcryptHash salt p2 ∧
    verify_password bcryptVerify p1 hashed = verify_password bcryptVerify p2 hashed := by
  have e1 := pwdInput_eq_take_72_bytes p1 h1
  have e2 := pwdInput_eq_take_72_bytes p2 h2
  have hin : pwdInput p1 = pwdInput p2 := by rw [e1, e2, hb]
  exact ⟨e1, hin, by unfold hash_password; rw [hin], by unfold verify_password; rw [hin]⟩

/-- Witness for C6: 73 copies of byte 65 versus 72 copies of byte 65
followed by byte 66 — equal on the first 72 bytes, different as strings. -/
theorem password_truncated_to_72_bytes_witness :
    (∀ c ∈ (List.replicate 73 [65] : PyStr), c ≠ []) ∧
    (∀ c ∈ (List.replicate 72 [65] ++ [[66]] : PyStr), c ≠ []) ∧
    (utf8Encode (List.replicate 73 [65])).take 72 =
      (utf8Encode (List.replicate 72 [65] ++ [[66]])).take 72 ∧
    (pwdInput (List.replicate 73 [65]) = (utf8Encode (List.replicate 73 [65])).take 72 ∧
     pwdInput (List.replicate 73 [65]) = pwdInput (List.replicate 72 [65] ++ [[66]]) ∧
     hash_password (fun l s => l.sum + s) 1 (List.replicate 73 [65]) =
       hash_password (fun l s => l.sum + s) 1 (List.replicate 72 [65] ++ [[66]]) ∧
     verify_password (fun l h => l.sum == h) (List.replicate 73 [65]) 0 =
       verify_password (fun l h => l.sum == h) (List.replicate 72 [65] ++ [[66]]) 0) :=
  ⟨by decide, by decide, by decide,
   password_truncated_to_72_bytes (List.replicate 73 [65])
     (List.replicate 72 [65] ++ [[66]]) (fun l s => l.sum + s) 1
     (fun l h => l.sum == h) 0 (by decide) (by decide) (by decide)⟩

/-! ## Data Store (`db.py` schema, `main.py` DB helpers)

Tables are modelled as row lists in insertion order; `id` primary keys and
the `created_at`/`updated_at` timestamp columns play no role in any claim
and are omitted from the row records. SQLite's
`INSERT ... ON CONFLICT(user_id, sku) DO UPDATE` updates the conflicting
row in place when one exists and appends a fresh row otherwise. The
`monthly_sales` CHECK constraints (`month BETWEEN 1 AND 12`,
`units_sold >= 0`) are modelled as an `IntegrityError` raised by the
single-row sales upsert; the `products` table declares no CHECK
constraints. -/

/-- One row of the `products` table (`db.py`): a SKU configuration owned by
exactly one user. -/
structure ProductRow where
  user_id : ℤ
  sku : String
  name : String
  lead_time_days : ℤ
  z_value : ℝ
  fba_stock : ℤ
  inbound_stock : ℤ

/-- One row of the `monthly_sales` table (`db.py`). -/
structure SalesRow where
  user_id : ℤ
  sku : String
  year : ℤ
  month : ℤ
  units_sold : ℤ

/-- The database: both user-scoped tables. -/
structure DB where
  products : List ProductRow
  monthly_sales : List SalesRow

/-- The `WHERE user_id=? AND sku=?` condition on `products`, which is also
the `UNIQUE(user_id, sku)` conflict key. -/
def productKey (uid : ℤ) (sku : String) (r : ProductRow) : Bool :=
  r.user_id == uid && r.sku == sku

/-- The `WHERE user_id=? AND sku=? AND year=? AND month=?` condition on
`monthly_sales`, also its `UNIQUE` conflict key. -/
def salesKey (uid : ℤ) (sku : String) (y m : ℤ) (r : SalesRow) : Bool :=
  r.user_id == uid && r.sku == sku && r.year == y && r.month == m

/-- `fetch_product(cur, user_id, sku)` from `main.py`. -/
def fetch_product (db : DB) (uid : ℤ) (sku : String) : Option ProductRow :=
  db.products.find? (productKey uid sku)

/-- `fetch_month_units(cur, user_id, sku, y, m)` from `main.py`. -/
def fetch_month_units (db : DB) (uid : ℤ) (sku : String) (y m : ℤ) : Option ℤ :=
  (db.monthly_sales.find? (salesKey uid sku y m)).map SalesRow.units_sold

/-- `upsert_product(cur, user_id, sku, name, lead_time_days, z_value,
fba_stock, inbound_stock)` from `main.py`: on conflict with an existing
`(user_id, sku)` row the non-key columns are overwritten in place, otherwise
a new row is inserted. -/
def upsert_product (db : DB) (uid : ℤ) (sku name : String) (lead_time_days : ℤ)
    (z_value : ℝ) (fba_stock inbound_stock : ℤ) : DB :=
  if db.products.any (productKey uid sku) then
    { db with
      products := db.products.map fun r =>
        if productKey uid sku r then
          { r with name := name, lead_time_days := lead_time_days,
                   z_value := z_value, fba_stock := fba_stock,
                   inbound_stock := inbound_stock }
        else r }
  else
    { db with
      products := db.products ++
        [⟨uid, sku, name, lead_time_days, z_value, fba_stock, inbound_stock⟩] }

/-- The exception `sqlite3` raises when a statement violates a schema
constraint, in particular the `monthly_sales` checks
`CHECK(month BETWEEN 1 AND 12)` and `CHECK(units_sold >= 0)` of `db.py`. -/
inductive DBErr where
  | integrityError
deriving DecidableEq

/-- One iteration of the loop in `upsert_monthly_sales`: upsert a single
`(user_id, sku, year, month)` fact, overwriting `units_sold` on conflict.
SQLite evaluates the table's CHECK constraints against the row being
inserted or updated, so `cur.execute` raises `sqlite3.IntegrityError` when
the incoming month is outside 1..12 or the units value is negative (on the
conflict-update path the row keeps its key fields — equal to the incoming
ones — and takes the incoming `units_sold`, so the same test applies). -/
def upsert_month_row (db : DB) (uid : ℤ) (sku : String) (y m u : ℤ) :
    Except DBErr DB :=
  if m < 1 ∨ 12 < m ∨ u < 0 then .error .integrityError
  else if db.monthly_sales.any (salesKey uid sku y m) then
    .ok { db with
          monthly_sales := db.monthly_sales.map fun r =>
            if salesKey uid sku y m r then { r with units_sold := u } else r }
  else
    .ok { db with monthly_sales := db.monthly_sales ++ [⟨uid, sku, y, m, u⟩] }

/-- Python's `zip` on three lists, as iterated by `upsert_monthly_sales`:
positional triples up to the shortest list. -/
def zip3 : List ℤ → List ℤ → List ℤ → List (ℤ × ℤ × ℤ)
  | y :: ys, m :: ms, u :: us => (y, m, u) :: zip3 ys ms us
  | _, _, _ => []

/-- The `for y, m, u in zip(...)` loop body of `upsert_monthly_sales`: one
single-row upsert per triple, the loop aborting with the exception as soon
as one `execute` raises. -/
def upsert_sales_loop (uid : ℤ) (sku : String) :
    DB → List (ℤ × ℤ × ℤ) → Except DBErr DB
  | db, [] => .ok db
  | db, t :: ts =>
      match upsert_month_row db uid sku t.1 t.2.1 t.2.2 with
      | .error e => .error e
      | .ok d => upsert_sales_loop uid sku d ts

/-- `upsert_monthly_sales(cur, user_id, sku, years, months, units_sold)`
from `main.py`: `for y, m, u in zip(years, months, units_sold)`, one
single-row upsert per triple; an `IntegrityError` propagates out of the
loop. -/
def upsert_monthly_sales (db : DB) (uid : ℤ) (sku : String)
    (years months units_sold : List ℤ) : Except DBErr DB :=
  upsert_sales_loop uid sku db (zip3 years months units_sold)

/-- Stored state as the caller observes it after a batch upsert: the new
tables on success; on an uncaught `IntegrityError` the route never reaches
`conn.commit()`, so the stored state is unchanged. -/
def commitResult (r : Except DBErr DB) (db : DB) : DB :=
  match r with
  | .ok d => d
  | .error _ => db

/-- `delete_product_and_sales(cur, user_id, sku)` from `main.py`: delete the
SKU's sales facts, then its product row. -/
def delete_product_and_sales (db : DB) (uid : ℤ) (sku : String) : DB :=
  { products := db.products.filter fun r => !productKey uid sku r
    monthly_sales := db.monthly_sales.filter fun r => !(r.user_id == uid && r.sku == sku) }

/-- `delete_single_month_sale(cur, user_id, sku, year, month)` from
`main.py`. -/
def delete_single_month_sale (db : DB) (uid : ℤ) (sku : String) (y m : ℤ) : DB :=
  { db with monthly_sales := db.monthly_sales.filter fun r => !salesKey uid sku y m r }

/-- `last_n_calendar_months(n)` from `main.py`, with `date.today()`'s year
and month passed explicitly: append the current `(y, m)`, step the month
down, rolling `m == 0` over to December of the previous year. -/
def last_n_calendar_months (y m : ℤ) : ℕ → List (ℤ × ℤ)
  | 0 => []
  | n + 1 =>
      (y, m) ::
        (if m - 1 = 0 then last_n_calendar_months (y - 1) 12 n
         else last_n_calendar_months y (m - 1) n)

/-- `compute_for_sku(cur, user_id, sku)` from `main.py`, with today's year
and month passed explicitly: `None` without a product row, otherwise the
product, the 3-month window, the units of the window months that have a
recorded fact, and the engine's metrics on that sequence. -/
noncomputable def compute_for_sku (db : DB) (uid : ℤ) (sku : String) (ty tm : ℤ) :
    Option (ProductRow × List (ℤ × ℤ) × List ℤ × Metrics) :=
  match fetch_product db uid sku with
  | none => none
  | some prod =>
      let last3 := last_n_calendar_months ty tm 3
      let monthly_units := last3.filterMap fun p => fetch_month_units db uid sku p.1 p.2
      some (prod, last3, monthly_units,
        compute_from_last_months prod.lead_time_days prod.z_value monthly_units
          prod.fba_stock prod.inbound_stock)

/-- Previous calendar month, as the spec's §4.4 window rule describes it:
January rolls back to December of the previous year. -/
def prevMonth : ℤ × ℤ → ℤ × ℤ
  | (y, m) => if m = 1 then (y - 1, 12) else (y, m - 1)

/-- The rows of the database a given user owns: both tables filtered by
`user_id`. -/
def restrictDB (db : DB) (u : ℤ) : DB :=
  { products := db.products.filter fun r => r.user_id == u
    monthly_sales := db.monthly_sales.filter fun r => r.user_id == u }

/-- One step of the month-window loop: the head is the current month and the
tail starts from the previous calendar month. -/
theorem last_n_succ (y m : ℤ) (n : ℕ) :
    last_n_calendar_months y m (n + 1) =
      (y, m) :: last_n_calendar_months (prevMonth (y, m)).1 (prevMonth (y, m)).2 n := by
  have lhs : last_n_calendar_months y m (n + 1) =
      (y, m) :: (if m - 1 = 0 then last_n_calendar_months (y - 1) 12 n
                 else last_n_calendar_months y (m - 1) n) := rfl
  rw [lhs]
  by_cases h : m = 1
  · subst h; norm_num [prevMonth]
  · have h' : ¬(m - 1 = 0) := by omega
    simp [prevMonth, h, h']

/-- The 3-month window is the current month followed by the two previous
calendar months, most-recent first. -/
theorem window3 (y m : ℤ) :
    last_n_calendar_months y m 3 =
      [(y, m), prevMonth (y, m), prevMonth (prevMonth (y, m))] := by
  rw [show (3 : ℕ) = 2 + 1 from rfl, last_n_succ,
      show (2 : ℕ) = 1 + 1 from rfl, last_n_succ,
      show (1 : ℕ) = 0 + 1 from rfl, last_n_succ]
  simp [last_n_calendar_months]

/-- C3: `compute_for_sku` is `none` exactly when no product row exists for
`(userId, sku)`; otherwise it returns the product together with the window
of the 3 most-recent calendar months ending at the current month
(most-recent first, rolling across year boundaries) and feeds the engine
only the units of window months that have a recorded fact — months without
a fact are omitted, not zero. -/
theorem compute_for_sku_window (db : DB) (uid : ℤ) (sku : String) (ty tm : ℤ)
    (_hm1 : 1 ≤ tm) (_hm2 : tm ≤ 12) :
    compute_for_sku db uid sku ty tm =
      (fetch_product db uid sku).map fun prod =>
        (prod,
         [(ty, tm), prevMonth (ty, tm), prevMonth (prevMonth (ty, tm))],
         [(ty, tm), prevMonth (ty, tm), prevMonth (prevMonth (ty, tm))].filterMap
           (fun p => fetch_month_units db uid sku p.1 p.2),
         compute_from_last_months prod.lead_time_days prod.z_value
           ([(ty, tm), prevMonth (ty, tm), prevMonth (prevMonth (ty, tm))].filterMap
             (fun p => fetch_month_units db uid sku p.1 p.2))
           prod.fba_stock prod.inbound_stock) := by
  cases hfp : fetch_product db uid sku <;>
    simp [compute_for_sku, hfp, window3]

/-- Witness for C3: the empty database in October 2025 — no product row, so
the result is `none` on both sides. -/
theorem compute_for_sku_window_witness :
    (1 : ℤ) ≤ 10 ∧ (10 : ℤ) ≤ 12 ∧
    compute_for_sku ⟨[], []⟩ 1 "A" 2025 10 =
      (fetch_product ⟨[], []⟩ 1 "A").map (fun prod =>
        (prod,
         [((2025 : ℤ), (10 : ℤ)), prevMonth (2025, 10), prevMonth (prevMonth (2025, 10))],
         [((2025 : ℤ), (10 : ℤ)), prevMonth (2025, 10),
           prevMonth (prevMonth (2025, 10))].filterMap
           (fun p => fetch_month_units ⟨[], []⟩ 1 "A" p.1 p.2),
         compute_from_last_months prod.lead_time_days prod.z_value
           ([((2025 : ℤ), (10 : ℤ)), prevMonth (2025, 10),
              prevMonth (prevMonth (2025, 10))].filterMap
             (fun p => fetch_month_units ⟨[], []⟩ 1 "A" p.1 p.2))
           prod.fba_stock prod.inbound_stock)) :=
  ⟨by decide, by decide,
   compute_for_sku_window ⟨[], []⟩ 1 "A" 2025 10 (by decide) (by decide)⟩

/-- Truncating all three lists to the length of their three-way zip leaves
the zip unchanged. -/
theorem zip3_take_min (ys ms us : List ℤ) :
    zip3 (ys.take (min (min ys.length ms.length) us.length))
         (ms.take (min (min ys.length ms.length) us.length))
         (us.take (min (min ys.length ms.length) us.length)) = zip3 ys ms us := by
  induction ys generalizing ms us with
  | nil => simp [zip3]
  | cons y ys ih =>
      cases ms with
      | nil => simp [zip3]
      | cons m ms =>
          cases us with
          | nil => simp [zip3]
          | cons u us =>
              simp only [List.length_cons, Nat.succ_min_succ, List.take_succ_cons, zip3]
              rw [ih]

/-- The three-way zip is as long as the shortest of the three lists. -/
theorem zip3_length (ys ms us : List ℤ) :
    (zip3 ys ms us).length = min (min ys.length ms.length) us.length := by
  induction ys generalizing ms us with
  | nil => simp [zip3]
  | cons y ys ih =>
      cases ms with
      | nil => simp [zip3]
      | cons m ms =>
          cases us with
          | nil => simp [zip3]
          | cons u us =>
              simp only [zip3, List.length_cons, Nat.succ_min_succ]
              rw [ih]

/-- When every triple passes the `monthly_sales` CHECK constraints, the
upsert loop runs to completion without raising. -/
theorem upsert_sales_loop_ok (uid : ℤ) (sku : String) (ts : List (ℤ × ℤ × ℤ)) :
    ∀ db : DB, (∀ t ∈ ts, 1 ≤ t.2.1 ∧ t.2.1 ≤ 12 ∧ 0 ≤ t.2.2) →
      ∃ d, upsert_sales_loop uid sku db ts = .ok d := by
  induction ts with
  | nil => exact fun db _ => ⟨db, rfl⟩
  | cons t ts ih =>
      intro db hok
      have ht := hok t (List.mem_cons_self t ts)
      have hchk : ¬(t.2.1 < 1 ∨ 12 < t.2.1 ∨ t.2.2 < 0) := by omega
      obtain ⟨d, hd⟩ : ∃ d, upsert_month_row db uid sku t.1 t.2.1 t.2.2 = .ok d := by
        unfold upsert_month_row
        rw [if_neg hchk]
        by_cases hany : db.monthly_sales.any (salesKey uid sku t.1 t.2.1) = true
        · rw [if_pos hany]; exact ⟨_, rfl⟩
        · rw [if_neg hany]; exact ⟨_, rfl⟩
      rcases ih d (fun x hx => hok x (List.mem_cons_of_mem t hx)) with ⟨d2, hd2⟩
      exact ⟨d2, by simp [upsert_sales_loop, hd, hd2]⟩

/-- C10 counterexample: a single-triple call with month 13 (resp. negative
units) raises `sqlite3.IntegrityError` instead of performing the
`min(1, 1, 1) = 1` write the claim promises for every call. -/
theorem upsert_monthly_sales_rejects_out_of_range :
    (zip3 [2025] [13] [5]).length = 1 ∧
    upsert_monthly_sales ⟨[], []⟩ 1 "A" [2025] [13] [5] = .error .integrityError ∧
    upsert_monthly_sales ⟨[], []⟩ 1 "A" [2025] [10] [-5] = .error .integrityError :=
  ⟨rfl, rfl, rfl⟩

/-- C10 amended (implicit): `upsert_monthly_sales` pairs its three parallel
lists positionally; on every call whose paired (month, units) values all
satisfy the schema checks (month in 1..12, units non-negative) the batch
succeeds and performs exactly
`min(len(years), len(months), len(units_sold))` single-fact writes, surplus
entries of any longer list being silently ignored: the call equals the call
on the three lists truncated to that common length. A pair violating a
check instead aborts the batch with an uncaught `sqlite3.IntegrityError`. -/
theorem upsert_monthly_sales_pairs_positionally (db : DB) (uid : ℤ) (sku : String)
    (years months units_sold : List ℤ)
    (hok : ∀ t ∈ zip3 years months units_sold,
      1 ≤ t.2.1 ∧ t.2.1 ≤ 12 ∧ 0 ≤ t.2.2) :
    (zip3 years months units_sold).length =
      min (min years.length months.length) units_sold.length ∧
    (∃ db2, upsert_monthly_sales db uid sku years months units_sold = .ok db2) ∧
    upsert_monthly_sales db uid sku years months units_sold =
      upsert_monthly_sales db uid sku
        (years.take (min (min years.length months.length) units_sold.length))
        (months.take (min (min years.length months.length) units_sold.length))
        (units_sold.take (min (min years.length months.length) units_sold.length)) := by
  refine ⟨zip3_length years months units_sold,
          upsert_sales_loop_ok uid sku _ db hok, ?_⟩
  unfold upsert_monthly_sales
  rw [zip3_take_min]

/-- Witness for the amended C10: two in-range facts with a surplus third
units entry, on the empty database. -/
theorem upsert_monthly_sales_pairs_positionally_witness :
    (∀ t ∈ zip3 [2025, 2025] [10, 9] [55, 40, 99],
      1 ≤ t.2.1 ∧ t.2.1 ≤ 12 ∧ 0 ≤ t.2.2) ∧
    ((zip3 [2025, 2025] [10, 9] [55, 40, 99]).length =
      min (min ([2025, 2025] : List ℤ).length ([10, 9] : List ℤ).length)
        ([55, 40, 99] : List ℤ).length ∧
     (∃ db2, upsert_monthly_sales ⟨[], []⟩ 1 "A" [2025, 2025] [10, 9] [55, 40, 99] =
        .ok db2) ∧
     upsert_monthly_sales ⟨[], []⟩ 1 "A" [2025, 2025] [10, 9] [55, 40, 99] =
       upsert_monthly_sales ⟨[], []⟩ 1 "A"
         (([2025, 2025] : List ℤ).take
           (min (min ([2025, 2025] : List ℤ).length ([10, 9] : List ℤ).length)
             ([55, 40, 99] : List ℤ).length))
         (([10, 9] : List ℤ).take
           (min (min ([2025, 2025] : List ℤ).length ([10, 9] : List ℤ).length)
             ([55, 40, 99] : List ℤ).length))
         (([55, 40, 99] : List ℤ).take
           (min (min ([2025, 2025] : List ℤ).length ([10, 9] : List ℤ).length)
             ([55, 40, 99] : List ℤ).length))) :=
  ⟨by decide,
   upsert_monthly_sales_pairs_positionally ⟨[], []⟩ 1 "A"
     [2025, 2025] [10, 9] [55, 40, 99] (by decide)⟩

/-- Filtering commutes with a map that never changes whether a row matches
the filter. -/
theorem filter_map_comm {α : Type} (l : List α) (p : α → Bool) (f : α → α)
    (h : ∀ a, p (f a) = p a) :
    (l.map f).filter p = (l.filter p).map f := by
  induction l with
  | nil => rfl
  | cons a t ih =>
      simp only [List.map_cons, List.filter_cons, h a]
      cases hpa : p a <;> simp [ih]

/-- The conflict-key rows of `products` after one `upsert_product`, given
the schema's `UNIQUE(user_id, sku)` invariant on the starting table: exactly
the one row holding the call's arguments. -/
theorem upsert_product_filter_key (db : DB) (uid : ℤ) (sku name : String)
    (lt : ℤ) (z : ℝ) (fba inbound : ℤ)
    (hinv : (db.products.filter (productKey uid sku)).length ≤ 1) :
    (upsert_product db uid sku name lt z fba inbound).products.filter (productKey uid sku) =
      [⟨uid, sku, name, lt, z, fba, inbound⟩] := by
  by_cases hany : db.products.any (productKey uid sku) = true
  · unfold upsert_product
    rw [if_pos hany]
    have hpf : ∀ r : ProductRow,
        productKey uid sku
          (if productKey uid sku r then
            { r with name := name, lead_time_days := lt, z_value := z,
                     fba_stock := fba, inbound_stock := inbound }
          else r) = productKey uid sku r := by
      intro r
      by_cases hpr : productKey uid sku r = true
      · rw [if_pos hpr, hpr]
        simp only [productKey] at hpr ⊢
        exact hpr
      · rw [if_neg hpr]
    rw [filter_map_comm _ _ _ hpf]
    obtain ⟨r, hr⟩ : ∃ r, db.products.filter (productKey uid sku) = [r] := by
      rcases List.any_eq_true.mp hany with ⟨x, hx, hpx⟩
      have hxmem : x ∈ db.products.filter (productKey uid sku) :=
        List.mem_filter.mpr ⟨hx, hpx⟩
      cases hl : db.products.filter (productKey uid sku) with
      | nil => rw [hl] at hxmem; cases hxmem
      | cons r t =>
          cases t with
          | nil => exact ⟨r, rfl⟩
          | cons s t2 => rw [hl] at hinv; simp at hinv
    rw [hr]
    have hpr : productKey uid sku r = true := by
      have : r ∈ db.products.filter (productKey uid sku) := by
        rw [hr]; exact List.mem_singleton.mpr rfl
      exact (List.mem_filter.mp this).2
    have huid : r.user_id = uid := by
      simp only [productKey, Bool.and_eq_true, beq_iff_eq] at hpr
      exact hpr.1
    have hsku : r.sku = sku := by
      simp only [productKey, Bool.and_eq_true, beq_iff_eq] at hpr
      exact hpr.2
    rw [List.map_cons, List.map_nil, if_pos hpr]
    cases r
    simp_all
  · unfold upsert_product
    rw [if_neg hany, List.filter_append]
    have hnil : db.products.filter (productKey uid sku) = [] := by
      rw [List.filter_eq_nil_iff]
      intro a ha hpa
      exact hany (List.any_eq_true.mpr ⟨a, ha, hpa⟩)
    rw [hnil]
    simp [productKey]

/-- When a `(user_id, sku)` row already exists, `upsert_product` changes no
row count: the conflict clause updates in place. -/
theorem upsert_product_length_stable (db : DB) (uid : ℤ) (sku name : String)
    (lt : ℤ) (z : ℝ) (fba inbound : ℤ)
    (hany : db.products.any (productKey uid sku) = true) :
    (upsert_product db uid sku name lt z fba inbound).products.length =
      db.products.length := by
  unfold upsert_product
  rw [if_pos hany]
  simp

/-- C7: starting from a table satisfying the `(user, sku)` uniqueness
invariant, a second `upsert_product` write with the same pair mutates the
existing row instead of adding one (the row count is unchanged), and after
two calls exactly one row carries that pair, its fields equal to the second
call's arguments. -/
theorem upsert_product_upsert_semantics (db : DB) (uid : ℤ) (sku name1 name2 : String)
    (lt1 lt2 : ℤ) (z1 z2 : ℝ) (fba1 fba2 inbound1 inbound2 : ℤ)
    (hinv : (db.products.filter (productKey uid sku)).length ≤ 1) :
    (upsert_product (upsert_product db uid sku name1 lt1 z1 fba1 inbound1)
        uid sku name2 lt2 z2 fba2 inbound2).products.filter (productKey uid sku) =
      [⟨uid, sku, name2, lt2, z2, fba2, inbound2⟩] ∧
    (upsert_product (upsert_product db uid sku name1 lt1 z1 fba1 inbound1)
        uid sku name2 lt2 z2 fba2 inbound2).products.length =
      (upsert_product db uid sku name1 lt1 z1 fba1 inbound1).products.length := by
  have h1 := upsert_product_filter_key db uid sku name1 lt1 z1 fba1 inbound1 hinv
  have hinv1 :
      ((upsert_product db uid sku name1 lt1 z1 fba1 inbound1).products.filter
        (productKey uid sku)).length ≤ 1 := by
    rw [h1]; simp
  have hany1 :
      (upsert_product db uid sku name1 lt1 z1 fba1 inbound1).products.any
        (productKey uid sku) = true := by
    have hmem : (⟨uid, sku, name1, lt1, z1, fba1, inbound1⟩ : ProductRow) ∈
        (upsert_product db uid sku name1 lt1 z1 fba1 inbound1).products.filter
          (productKey uid sku) := by
      rw [h1]; exact List.mem_singleton.mpr rfl
    exact List.any_eq_true.mpr
      ⟨_, List.mem_of_mem_filter hmem, (List.mem_filter.mp hmem).2⟩
  exact ⟨upsert_product_filter_key _ uid sku name2 lt2 z2 fba2 inbound2 hinv1,
         upsert_product_length_stable _ uid sku name2 lt2 z2 fba2 inbound2 hany1⟩

/-- Witness for C7: two writes for user 1, SKU "A" on the empty table. -/
theorem upsert_product_upsert_semantics_witness :
    ((⟨[], []⟩ : DB).products.filter (productKey 1 "A")).length ≤ 1 ∧
    ((upsert_product (upsert_product ⟨[], []⟩ 1 "A" "n1" 5 1 10 0)
        1 "A" "n2" 7 2 20 3).products.filter (productKey 1 "A") =
      [⟨1, "A", "n2", 7, 2, 20, 3⟩] ∧
     (upsert_product (upsert_product ⟨[], []⟩ 1 "A" "n1" 5 1 10 0)
        1 "A" "n2" 7 2 20 3).products.length =
      (upsert_product ⟨[], []⟩ 1 "A" "n1" 5 1 10 0).products.length) :=
  ⟨by decide,
   upsert_product_upsert_semantics ⟨[], []⟩ 1 "A" "n1" "n2" 5 7 1 2 10 20 0 3 (by decide)⟩

/-- A map that fixes every row matching the filter and never changes
matching status is invisible to the filter. -/
theorem filter_map_fix {α : Type} (l : List α) (q : α → Bool) (f : α → α)
    (hq : ∀ a, q (f a) = q a) (hfix : ∀ a, q a = true → f a = a) :
    (l.map f).filter q = l.filter q := by
  rw [filter_map_comm _ _ _ hq]
  calc (l.filter q).map f = (l.filter q).map id :=
        List.map_congr_left fun a ha => hfix a (List.mem_filter.mp ha).2
    _ = l.filter q := List.map_id _

/-- Pre-filtering by a weaker predicate does not change a filter by a
stronger one. -/
theorem filter_filter_subsume {α : Type} (l : List α) (q w : α → Bool)
    (h : ∀ a, q a = true → w a = true) :
    (l.filter w).filter q = l.filter q := by
  induction l with
  | nil => rfl
  | cons a t ih =>
      cases hw : w a with
      | true => simp only [List.filter_cons, hw]; cases hq : q a <;> simp [hq, ih]
      | false =>
          have hq : q a = false := by
            cases hqa : q a
            · rfl
            · rw [h a hqa] at hw; cases hw
          simp [List.filter_cons, hw, hq, ih]

/-- Pre-filtering by a weaker predicate does not change `find?` for a
stronger one. -/
theorem find?_filter_subsume {α : Type} (l : List α) (p w : α → Bool)
    (h : ∀ a, p a = true → w a = true) :
    (l.filter w).find? p = l.find? p := by
  induction l with
  | nil => rfl
  | cons a t ih =>
      cases hw : w a with
      | true =>
          cases hp : p a with
          | true => simp [List.filter_cons, hw, List.find?_cons, hp]
          | false => simp [List.filter_cons, hw, List.find?_cons, hp, ih]
      | false =>
          have hp : p a = false := by
            cases hpa : p a
            · rfl
            · rw [h a hpa] at hw; cases hw
          simp [List.filter_cons, hw, List.find?_cons, hp, ih]

/-- A row owned by another user never matches the product conflict key. -/
theorem productKey_false_of_other_user {u u' : ℤ} {sku : String} {r : ProductRow}
    (huu : u ≠ u') (hr : (r.user_id == u') = true) : productKey u sku r = false := by
  have hid : r.user_id = u' := beq_iff_eq.mp hr
  simp only [productKey, hid]
  rw [show (u' == u) = false from beq_eq_false_iff_ne.mpr (Ne.symm huu)]
  rfl

/-- A row owned by another user never matches the sales conflict key. -/
theorem salesKey_false_of_other_user {u u' y m : ℤ} {sku : String} {r : SalesRow}
    (huu : u ≠ u') (hr : (r.user_id == u') = true) : salesKey u sku y m r = false := by
  have hid : r.user_id = u' := beq_iff_eq.mp hr
  simp only [salesKey, hid]
  rw [show (u' == u) = false from beq_eq_false_iff_ne.mpr (Ne.symm huu)]
  rfl

/-- `upsert_product` on behalf of one user leaves another user's rows
untouched. -/
theorem restrict_upsert_product (db : DB) (u u' : ℤ) (sku name : String)
    (lt : ℤ) (z : ℝ) (fba inbound : ℤ) (huu : u ≠ u') :
    restrictDB (upsert_product db u sku name lt z fba inbound) u' = restrictDB db u' := by
  unfold upsert_product restrictDB
  by_cases hany : db.products.any (productKey u sku) = true
  · rw [if_pos hany]
    simp only
    congr 1
    apply filter_map_fix
    · intro r
      by_cases hpr : productKey u sku r = true
      · rw [if_pos hpr]
      · rw [if_neg hpr]
    · intro r hru
      rw [if_neg (by rw [productKey_false_of_other_user huu hru]; simp)]
  · rw [if_neg hany]
    simp only
    congr 1
    rw [List.filter_append]
    have : (([⟨u, sku, name, lt, z, fba, inbound⟩] : List ProductRow).filter
        fun r => r.user_id == u') = [] := by
      simp only [List.filter_cons, List.filter_nil]
      rw [show ((u == u') = false) from beq_eq_false_iff_ne.mpr huu]
      rfl
    rw [this, List.append_nil]

/-- A single monthly-sales upsert on behalf of one user, when it succeeds,
leaves another user's rows untouched. -/
theorem restrict_upsert_month_row_ok (db d : DB) (u u' : ℤ) (sku : String)
    (y m units : ℤ) (huu : u ≠ u')
    (h : upsert_month_row db u sku y m units = .ok d) :
    restrictDB d u' = restrictDB db u' := by
  unfold upsert_month_row at h
  by_cases hchk : m < 1 ∨ 12 < m ∨ units < 0
  · rw [if_pos hchk] at h; cases h
  · rw [if_neg hchk] at h
    by_cases hany : db.monthly_sales.any (salesKey u sku y m) = true
    · rw [if_pos hany] at h
      injection h with h
      subst h
      unfold restrictDB
      simp only
      congr 1
      apply filter_map_fix
      · intro r
        by_cases hpr : salesKey u sku y m r = true
        · rw [if_pos hpr]
        · rw [if_neg hpr]
      · intro r hru
        rw [if_neg (by rw [salesKey_false_of_other_user huu hru]; simp)]
    · rw [if_neg hany] at h
      injection h with h
      subst h
      unfold restrictDB
      simp only
      congr 1
      rw [List.filter_append]
      have : (([⟨u, sku, y, m, units⟩] : List SalesRow).filter
          fun r => r.user_id == u') = [] := by
        simp only [List.filter_cons, List.filter_nil]
        rw [show ((u == u') = false) from beq_eq_false_iff_ne.mpr huu]
        rfl
      rw [this, List.append_nil]

/-- The batch monthly-sales upsert on behalf of one user leaves another
user's rows untouched — both when it succeeds and when an `IntegrityError`
aborts it before the commit. -/
theorem restrict_upsert_monthly_sales (db : DB) (u u' : ℤ) (sku : String)
    (years months units_sold : List ℤ) (huu : u ≠ u') :
    restrictDB (commitResult (upsert_monthly_sales db u sku years months units_sold) db) u' =
      restrictDB db u' := by
  unfold upsert_monthly_sales
  generalize zip3 years months units_sold = triples
  induction triples generalizing db with
  | nil => rfl
  | cons t ts ih =>
      cases h : upsert_month_row db u sku t.1 t.2.1 t.2.2 with
      | error e => simp [upsert_sales_loop, h, commitResult]
      | ok d =>
          have hd := restrict_upsert_month_row_ok db d u u' sku t.1 t.2.1 t.2.2 huu h
          have hloop : upsert_sales_loop u sku db (t :: ts) =
              upsert_sales_loop u sku d ts := by
            simp [upsert_sales_loop, h]
          rw [hloop]
          cases hl : upsert_sales_loop u sku d ts with
          | error e => simp [commitResult]
          | ok d2 =>
              have hih := ih d
              rw [hl] at hih
              simp only [commitResult] at hih ⊢
              exact hih.trans hd

/-- Deleting a product and its sales on behalf of one user leaves another
user's rows untouched. -/
theorem restrict_delete_product_and_sales (db : DB) (u u' : ℤ) (sku : String)
    (huu : u ≠ u') :
    restrictDB (delete_product_and_sales db u sku) u' = restrictDB db u' := by
  unfold delete_product_and_sales restrictDB
  congr 1
  · apply filter_filter_subsume
    intro r hru
    rw [productKey_false_of_other_user huu hru]
    rfl
  · apply filter_filter_subsume
    intro r hru
    have hid : r.user_id = u' := beq_iff_eq.mp hru
    simp only [hid]
    rw [show ((u' == u) = false) from beq_eq_false_iff_ne.mpr (Ne.symm huu)]
    rfl

/-- Deleting a single month's fact on behalf of one user leaves another
user's rows untouched. -/
theorem restrict_delete_single_month_sale (db : DB) (u u' : ℤ) (sku : String)
    (y m : ℤ) (huu : u ≠ u') :
    restrictDB (delete_single_month_sale db u sku y m) u' = restrictDB db u' := by
  unfold delete_single_month_sale restrictDB
  congr 1
  apply filter_filter_subsume
  intro r hru
  rw [salesKey_false_of_other_user huu hru]
  rfl

/-- `fetch_product` reads only the caller's own rows. -/
theorem fetch_product_restrict (db : DB) (u : ℤ) (sku : String) :
    fetch_product (restrictDB db u) u sku = fetch_product db u sku := by
  unfold fetch_product restrictDB
  apply find?_filter_subsume
  intro r hpr
  simp only [productKey, Bool.and_eq_true] at hpr
  exact hpr.1

/-- `fetch_month_units` reads only the caller's own rows. -/
theorem fetch_month_units_restrict (db : DB) (u : ℤ) (sku : String) (y m : ℤ) :
    fetch_month_units (restrictDB db u) u sku y m = fetch_month_units db u sku y m := by
  unfold fetch_month_units restrictDB
  rw [find?_filter_subsume]
  intro r hpr
  simp only [salesKey, Bool.and_eq_true] at hpr
  exact hpr.1.1.1

/-- `compute_for_sku` reads only the caller's own rows. -/
theorem compute_for_sku_restrict (db : DB) (u : ℤ) (sku : String) (ty tm : ℤ) :
    compute_for_sku (restrictDB db u) u sku ty tm = compute_for_sku db u sku ty tm := by
  have hfm : (fun p : ℤ × ℤ => fetch_month_units (restrictDB db u) u sku p.1 p.2) =
      fun p : ℤ × ℤ => fetch_month_units db u sku p.1 p.2 :=
    funext fun p => fetch_month_units_restrict db u sku p.1 p.2
  unfold compute_for_sku
  rw [fetch_product_restrict, hfm]

/-- C8: cross-user isolation. For distinct users `u ≠ u'`, every mutation
performed on behalf of `u` (product upsert, batch sales upsert — whether it
commits or aborts with an `IntegrityError` — product deletion with cascade,
single-fact deletion) leaves `u'`'s rows in both tables unchanged, and
every read on behalf of `u` (product fetch, month lookup, full metrics
computation) depends only on `u`'s own rows — its result is unchanged when
every other user's rows are removed. -/
theorem cross_user_isolation (db : DB) (u u' : ℤ) (sku name : String)
    (lt : ℤ) (z : ℝ) (fba inbound : ℤ) (years months units_sold : List ℤ)
    (y m ty tm : ℤ) (huu : u ≠ u') :
    restrictDB (upsert_product db u sku name lt z fba inbound) u' = restrictDB db u' ∧
    restrictDB (commitResult (upsert_monthly_sales db u sku years months units_sold) db) u' =
      restrictDB db u' ∧
    restrictDB (delete_product_and_sales db u sku) u' = restrictDB db u' ∧
    restrictDB (delete_single_month_sale db u sku y m) u' = restrictDB db u' ∧
    fetch_product (restrictDB db u) u sku = fetch_product db u sku ∧
    fetch_month_units (restrictDB db u) u sku y m = fetch_month_units db u sku y m ∧
    compute_for_sku (restrictDB db u) u sku ty tm = compute_for_sku db u sku ty tm :=
  ⟨restrict_upsert_product db u u' sku name lt z fba inbound huu,
   restrict_upsert_monthly_sales db u u' sku years months units_sold huu,
   restrict_delete_product_and_sales db u u' sku huu,
   restrict_delete_single_month_sale db u u' sku y m huu,
   fetch_product_restrict db u sku,
   fetch_month_units_restrict db u sku y m,
   compute_for_sku_restrict db u sku ty tm⟩

/-- Witness for C8: users 1 and 2 sharing the SKU string "A", on a database
where each owns one product row and one sales fact. -/
theorem cross_user_isolation_witness :
    (1 : ℤ) ≠ 2 ∧
    (restrictDB (upsert_product
        ⟨[⟨1, "A", "p", 5, 1, 0, 0⟩, ⟨2, "A", "q", 6, 1, 0, 0⟩],
         [⟨1, "A", 2025, 9, 40⟩, ⟨2, "A", 2025, 9, 70⟩]⟩ 1 "A" "n" 7 2 3 4) 2 =
      restrictDB ⟨[⟨1, "A", "p", 5, 1, 0, 0⟩, ⟨2, "A", "q", 6, 1, 0, 0⟩],
         [⟨1, "A", 2025, 9, 40⟩, ⟨2, "A", 2025, 9, 70⟩]⟩ 2 ∧
     restrictDB (commitResult (upsert_monthly_sales
        ⟨[⟨1, "A", "p", 5, 1, 0, 0⟩, ⟨2, "A", "q", 6, 1, 0, 0⟩],
         [⟨1, "A", 2025, 9, 40⟩, ⟨2, "A", 2025, 9, 70⟩]⟩ 1 "A" [2025] [10] [55])
        ⟨[⟨1, "A", "p", 5, 1, 0, 0⟩, ⟨2, "A", "q", 6, 1, 0, 0⟩],
         [⟨1, "A", 2025, 9, 40⟩, ⟨2, "A", 2025, 9, 70⟩]⟩) 2 =
      restrictDB ⟨[⟨1, "A", "p", 5, 1, 0, 0⟩, ⟨2, "A", "q", 6, 1, 0, 0⟩],
         [⟨1, "A", 2025, 9, 40⟩, ⟨2, "A", 2025, 9, 70⟩]⟩ 2 ∧
     restrictDB (delete_product_and_sales
        ⟨[⟨1, "A", "p", 5, 1, 0, 0⟩, ⟨2, "A", "q", 6, 1, 0, 0⟩],
         [⟨1, "A", 2025, 9, 40⟩, ⟨2, "A", 2025, 9, 70⟩]⟩ 1 "A") 2 =
      restrictDB ⟨[⟨1, "A", "p", 5, 1, 0, 0⟩, ⟨2, "A", "q", 6, 1, 0, 0⟩],
         [⟨1, "A", 2025, 9, 40⟩, ⟨2, "A", 2025, 9, 70⟩]⟩ 2 ∧
     restrictDB (delete_single_month_sale
        ⟨[⟨1, "A", "p", 5, 1, 0, 0⟩, ⟨2, "A", "q", 6, 1, 0, 0⟩],
         [⟨1, "A", 2025, 9, 40⟩, ⟨2, "A", 2025, 9, 70⟩]⟩ 1 "A" 2025 9) 2 =
      restrictDB ⟨[⟨1, "A", "p", 5, 1, 0, 0⟩, ⟨2, "A", "q", 6, 1, 0, 0⟩],
         [⟨1, "A", 2025, 9, 40⟩, ⟨2, "A", 2025, 9, 70⟩]⟩ 2 ∧
     fetch_product (restrictDB ⟨[⟨1, "A", "p", 5, 1, 0, 0⟩, ⟨2, "A", "q", 6, 1, 0, 0⟩],
         [⟨1, "A", 2025, 9, 40⟩, ⟨2, "A", 2025, 9, 70⟩]⟩ 1) 1 "A" =
      fetch_product ⟨[⟨1, "A", "p", 5, 1, 0, 0⟩, ⟨2, "A", "q", 6, 1, 0, 0⟩],
         [⟨1, "A", 2025, 9, 40⟩, ⟨2, "A", 2025, 9, 70⟩]⟩ 1 "A" ∧
     fetch_month_units (restrictDB ⟨[⟨1, "A", "p", 5, 1, 0, 0⟩, ⟨2, "A", "q", 6, 1, 0, 0⟩],
         [⟨1, "A", 2025, 9, 40⟩, ⟨2, "A", 2025, 9, 70⟩]⟩ 1) 1 "A" 2025 9 =
      fetch_month_units ⟨[⟨1, "A", "p", 5, 1, 0, 0⟩, ⟨2, "A", "q", 6, 1, 0, 0⟩],
         [⟨1, "A", 2025, 9, 40⟩, ⟨2, "A", 2025, 9, 70⟩]⟩ 1 "A" 2025 9 ∧
     compute_for_sku (restrictDB ⟨[⟨1, "A", "p", 5, 1, 0, 0⟩, ⟨2, "A", "q", 6, 1, 0, 0⟩],
         [⟨1, "A", 2025, 9, 40⟩, ⟨2, "A", 2025, 9, 70⟩]⟩ 1) 1 "A" 2025 10 =
      compute_for_sku ⟨[⟨1, "A", "p", 5, 1, 0, 0⟩, ⟨2, "A", "q", 6, 1, 0, 0⟩],
         [⟨1, "A", 2025, 9, 40⟩, ⟨2, "A", 2025, 9, 70⟩]⟩ 1 "A" 2025 10) :=
  ⟨by decide,
   cross_user_isolation
     ⟨[⟨1, "A", "p", 5, 1, 0, 0⟩, ⟨2, "A", "q", 6, 1, 0, 0⟩],
      [⟨1, "A", 2025, 9, 40⟩, ⟨2, "A", 2025, 9, 70⟩]⟩
     1 2 "A" "n" 7 2 3 4 [2025] [10] [55] 2025 9 2025 10 (by decide)⟩

end AmazonPlanner
